import Mathlib

/-!
Verification of the obsidian-wakatime plugin (src/main.ts).

The development shallowly embeds the plugin's logic: JavaScript strings are
Lean `String`s, the JS `String.prototype.split`/`Array.prototype.join`/
`String.prototype.includes` operations are modelled character-exactly on
`List Char`, times are natural-number millisecond timestamps, and the
fire-and-forget promise chain of `sendHeartbeat` is modelled as a pure
state transformer on the `lastRequestWasError` flag.
-/

namespace Wakatime

/-- `isPrefixOfChars needle hay` is true when `needle` is a prefix of `hay`
(character-exact model of the prefix test underlying JS substring search). -/
def isPrefixOfChars : List Char → List Char → Bool
  | [], _ => true
  | _ :: _, [] => false
  | a :: as, b :: bs => a = b && isPrefixOfChars as bs

/-- `containsChars needle hay` is true when `needle` occurs contiguously in
`hay`: the model of `hay.includes(needle)` (Obsidian's `String.contains`). -/
def containsChars (needle : List Char) : List Char → Bool
  | [] => isPrefixOfChars needle []
  | c :: t => isPrefixOfChars needle (c :: t) || containsChars needle t

/-- `strIncludes s sub` models the JS expression `s.includes(sub)`
(equivalently Obsidian's `s.contains(sub)`). -/
def strIncludes (s sub : String) : Bool :=
  containsChars sub.toList s.toList

/-- Character-exact model of JS `String.prototype.split` with a one-character
separator: `"".split(sep) = [""]`, separators at the ends produce empty
fragments, `n` separators produce `n+1` fragments. -/
def jsSplit (sep : Char) : List Char → List (List Char)
  | [] => [[]]
  | c :: rest =>
    match jsSplit sep rest with
    | [] => [[c]]
    | h :: t => if c = sep then [] :: h :: t else (c :: h) :: t

/-- `s.split(sep)` at the `String` level. -/
def jsSplitStr (sep : Char) (s : String) : List String :=
  (jsSplit sep s.toList).map (fun l => String.mk l)

/-- Character-exact model of JS `Array.prototype.join` with a one-character
separator. -/
def jsJoin (sep : Char) : List String → String
  | [] => ""
  | x :: xs =>
    match xs with
    | [] => x
    | _ :: _ => x ++ String.mk [sep] ++ jsJoin sep xs

/-- JS truthiness of a `string | null` value: `null` and the empty string are
falsy, every other string is truthy. -/
def optStrTruthy : Option String → Bool
  | none => false
  | some s => s != ""

/-- JS template-literal coercion of a `string | null` value: `null` prints as
the string `"null"`. -/
def jsTemplate : Option String → String
  | none => "null"
  | some s => s

/-- The standard base64 alphabet. -/
def base64Alphabet : List Char :=
  "ABCDEFGHIJKLMNOPQRSTUVWXYZabcdefghijklmnopqrstuvwxyz0123456789+/".toList

/-- The base64 digit for a 6-bit value. -/
def base64Digit (n : Nat) : Char :=
  base64Alphabet.getD n 'A'

/-- Base64-encode a byte sequence three bytes at a time, padding with `=`. -/
def base64EncodeBytes : List Nat → List Char
  | [] => []
  | [b1] =>
    [base64Digit (b1 / 4), base64Digit (b1 % 4 * 16), '=', '=']
  | [b1, b2] =>
    [base64Digit (b1 / 4), base64Digit (b1 % 4 * 16 + b2 / 16),
     base64Digit (b2 % 16 * 4), '=']
  | b1 :: b2 :: b3 :: rest =>
    base64Digit (b1 / 4) :: base64Digit (b1 % 4 * 16 + b2 / 16) ::
    base64Digit (b2 % 16 * 4 + b3 / 64) :: base64Digit (b3 % 64) ::
    base64EncodeBytes rest

/-- Modelled from the spec: the platform base64 encoder `btoa` used for the
`Basic` authorization header (the function itself is a browser builtin and not
part of the repository's sources); standard base64 over the string's code
points. -/
def btoa (s : String) : String :=
  String.mk (base64EncodeBytes (s.toList.map Char.toNat))

/-- The persisted plugin settings (`ObsidianWakatimeSettings` in src/main.ts).
Nullable string fields become `Option String`. -/
structure ObsidianWakatimeSettings where
  enabled : Bool
  apiKey : Option String
  apiUrl : Option String
  defaultProject : Option String
  ignoreList : List String
  projectAssociations : List String
deriving DecidableEq

/-- `DEFAULT_SETTINGS` from src/main.ts. -/
def DEFAULT_SETTINGS : ObsidianWakatimeSettings :=
  { enabled := false, apiKey := none, apiUrl := none, defaultProject := none,
    ignoreList := [], projectAssociations := [] }

/-- The parts of Obsidian's `TFile` the plugin reads: the vault-relative path
and the file extension. -/
structure TFile where
  path : String
  extension : String
deriving DecidableEq

/-- An editor cursor position (`EditorPosition`): `line` and `ch`. -/
structure Cursor where
  line : Nat
  ch : Nat
deriving DecidableEq

/-- The active `FileView`: either a `MarkdownView` (with a cursor available
from its editor) or some other file view. -/
inductive ViewKind where
  | markdown (cursor : Cursor)
  | other
deriving DecidableEq

/-- The cursor of the active view: `view instanceof MarkdownView ?
view.editor.getCursor() : null`. -/
def viewCursor : ViewKind → Option Cursor
  | .markdown c => some c
  | .other => none

/-- What the host editor reports at the moment an input event fires: the
active file view (if any), the active file (if any), and `Date.now()` in
milliseconds. -/
structure EventEnv where
  view : Option ViewKind
  activeFile : Option TFile
  time : Nat
deriving DecidableEq

/-- The Activity Monitor's debounce state: the plugin fields `lastFile`
(initially undefined, hence `Option`) and `lastHeartbeat` (initially `0`). -/
structure MonitorState where
  lastFile : Option String
  lastHeartbeat : Nat
deriving DecidableEq

/-- The initial monitor state of a freshly loaded plugin. -/
def initialMonitorState : MonitorState := { lastFile := none, lastHeartbeat := 0 }

/-- `maxHeartbeatInterval = 120_000` from src/main.ts. -/
def maxHeartbeatInterval : Nat := 120000

/-- `enoughTimePassed` from src/main.ts:
`this.lastHeartbeat + this.maxHeartbeatInterval < time`. -/
def enoughTimePassed (st : MonitorState) (time : Nat) : Bool :=
  decide (st.lastHeartbeat + maxHeartbeatInterval < time)

/-- `getLanguageForFile` from src/main.ts: the `switch` on the file extension
returns `"Markdown"` for `md` and `null` otherwise. -/
def getLanguageForFile (file : TFile) : Option String :=
  if file.extension = "md" then some "Markdown" else none

/-- One step of the `getProjectForFile` loop body: `association.split('@')`
destructured as `[path, project]`, skipping (`continue`) when either part is
falsy or the split does not have exactly two parts. -/
def parseAssociation (association : String) : Option (String × String) :=
  match jsSplitStr '@' association with
  | [path, project] =>
    if path = "" ∨ project = "" then none else some (path, project)
  | _ => none

/-- The match attempt of one association rule against a file path: the rule's
project when the rule parses and its path fragment occurs in the file path. -/
def assocProject (filePath : String) (association : String) : Option String :=
  match parseAssociation association with
  | none => none
  | some (path, project) => if strIncludes filePath path then some project else none

/-- `getProjectForFile` from src/main.ts: first association rule whose path
fragment occurs in the file path wins; otherwise the default project when
truthy, otherwise the vault name. -/
def getProjectForFile (s : ObsidianWakatimeSettings) (vault : String) (file : TFile) : String :=
  match s.projectAssociations.findSome? (assocProject file.path) with
  | some project => project
  | none =>
    match s.defaultProject with
    | some d => if d = "" then vault else d
    | none => vault

/-- The JSON body of a heartbeat (`JSON.stringify({...})` in `sendHeartbeat`);
exactly these ten fields appear. -/
structure HeartbeatBody where
  time : ℚ
  entity : String
  type : String
  project : String
  language : Option String
  is_write : Bool
  cursorpos : Option Nat
  lineno : Option Nat
  editor : String
  category : String
deriving DecidableEq

/-- The outbound `requestUrl` call: URL, method, the three headers, and the
JSON body. -/
structure HeartbeatRequest where
  url : String
  method : String
  accept : String
  contentType : String
  authorization : String
  body : HeartbeatBody
deriving DecidableEq

/-- `sendHeartbeat` from src/main.ts: `none` when the plugin is disabled,
otherwise the request it issues.  The endpoint prefers a truthy custom
`apiUrl`; the authorization uses `Basic` + base64 with a custom URL and
`Bearer` otherwise; `entity` is `/<vault>/<path>`; `category` is `writing`
exactly when a (truthy) language was resolved. -/
def sendHeartbeat (s : ObsidianWakatimeSettings) (vault : String) (file : TFile)
    (time : Nat) (line : Option Nat) (cursorPosition : Option Nat) (isWrite : Bool) :
    Option HeartbeatRequest :=
  if !s.enabled then none
  else
    some
      { url := (if optStrTruthy s.apiUrl then jsTemplate s.apiUrl else "https://api.wakatime.com")
            ++ "/api/v1/users/current/heartbeats"
        method := "POST"
        accept := "application/json"
        contentType := "application/json"
        authorization :=
          if optStrTruthy s.apiUrl then "Basic " ++ btoa (jsTemplate s.apiKey)
          else "Bearer " ++ jsTemplate s.apiKey
        body :=
          { time := (time : ℚ) / 1000
            entity := "/" ++ vault ++ "/" ++ file.path
            type := "file"
            project := getProjectForFile s vault file
            language := getLanguageForFile file
            is_write := isWrite
            cursorpos := cursorPosition
            lineno := line
            editor := "Obsidian"
            category := if optStrTruthy (getLanguageForFile file) then "writing" else "reading" } }

/-- The record of one emitted heartbeat: the active file's path, the event
time, the write flag, and the request handed to `requestUrl`. -/
structure Emit where
  path : String
  time : Nat
  isWrite : Bool
  request : Option HeartbeatRequest
deriving DecidableEq

/-- `onEvent` from src/main.ts: the guards (enabled, active view, active
file, ignore list), the cursor lookup, the emission condition
`isWrite || enoughTimePassed(time) || lastFile !== activeFile.path`, and the
debounce-state update performed exactly on emission. -/
def onEvent (s : ObsidianWakatimeSettings) (vault : String) (env : EventEnv)
    (isWrite : Bool) (st : MonitorState) : Option Emit × MonitorState :=
  if !s.enabled then (none, st)
  else
    match env.view with
    | none => (none, st)
    | some view =>
      match env.activeFile with
      | none => (none, st)
      | some activeFile =>
        if s.ignoreList.any fun ignored =>
            strIncludes ignored activeFile.path || strIncludes activeFile.path ignored then
          (none, st)
        else if isWrite || enoughTimePassed st env.time
            || (st.lastFile != some activeFile.path) then
          (some { path := activeFile.path, time := env.time, isWrite := isWrite,
                  request := sendHeartbeat s vault activeFile env.time
                    ((viewCursor view).map Cursor.line) ((viewCursor view).map Cursor.ch) isWrite },
           { lastFile := some activeFile.path, lastHeartbeat := env.time })
        else (none, st)

/-- One input event as the monitor sees it: the settings and vault name in
force at that moment, the editor environment, and the write flag the caller
of `onEvent` passes. -/
structure MonitorEvent where
  settings : ObsidianWakatimeSettings
  vault : String
  env : EventEnv
  isWrite : Bool
deriving DecidableEq

/-- One monitor step: `onEvent` applied to one input event. -/
def monitorStep (st : MonitorState) (e : MonitorEvent) : Option Emit × MonitorState :=
  onEvent e.settings e.vault e.env e.isWrite st

/-- Run the Activity Monitor over a list of input events, collecting the
emitted heartbeats and the final debounce state. -/
def runMonitor (st : MonitorState) : List MonitorEvent → List Emit × MonitorState
  | [] => ([], st)
  | e :: evs =>
    match monitorStep st e with
    | (none, st1) => runMonitor st1 evs
    | (some hb, st1) =>
      match runMonitor st1 evs with
      | (hbs, stF) => (hb :: hbs, stF)

/-- The completion of one outbound request: `some status` when an HTTP
response arrived, `none` when the transport rejected with an exception. -/
abbrev Completion := Option Nat

/-- A completion the dispatcher treats as failed: an HTTP status of 300 or
above, or a transport exception. -/
def isFailure : Completion → Bool
  | some status => decide (300 ≤ status)
  | none => true

/-- The first `.then` handler of `sendHeartbeat`: on `status >= 300` it shows
the notice unless `lastRequestWasError` is already set, sets the flag and
throws (third component `true`); otherwise it passes the response on. -/
def thenHandler (flag : Bool) (status : Nat) : Bool × Nat × Bool :=
  if 300 ≤ status then (true, (if flag then 0 else 1), true)
  else (flag, 0, false)

/-- The `.catch` handler of `sendHeartbeat`: shows the notice unless
`lastRequestWasError` is already set, and sets the flag. -/
def catchHandler (flag : Bool) : Bool × Nat :=
  (true, if flag then 0 else 1)

/-- One request completion run through the promise chain of `sendHeartbeat`:
result is the new `lastRequestWasError` flag and the number of user notices
raised.  An HTTP-error response passes through the first `.then` handler and
then, because that handler throws, also through `.catch`; a transport
exception goes to `.catch` directly; a success runs the second `.then`
handler, which resets the flag. -/
def handleCompletion (flag : Bool) (c : Completion) : Bool × Nat :=
  match c with
  | none => catchHandler flag
  | some status =>
    match thenHandler flag status with
    | (flag1, n1, true) =>
      match catchHandler flag1 with
      | (flag2, n2) => (flag2, n1 + n2)
    | (_, n1, false) => (false, n1)

/-- Run a sequence of request completions through the dispatcher, collecting
the per-completion notice counts and the final flag. -/
def runDispatch (flag : Bool) : List Completion → List Nat × Bool
  | [] => ([], flag)
  | c :: cs =>
    match handleCompletion flag c with
    | (flag1, n) =>
      match runDispatch flag1 cs with
      | (ns, flagF) => (n :: ns, flagF)

/-- Modelled from the spec: the expected notice count per completion — a
notice exactly when the completion fails and the failure streak was not
already open (the streak flag opens on a failure and is reset by a
success). -/
def noticesSpec (flag : Bool) : List Completion → List Nat
  | [] => []
  | c :: cs => (if isFailure c && !flag then 1 else 0) :: noticesSpec (isFailure c) cs

/-- The UI state of the settings-tab enable toggle. -/
structure ToggleState where
  disabled : Bool
  value : Bool
deriving DecidableEq

/-- The outcome of the enable-toggle `onChange` handler: the settings
afterwards, the toggle state afterwards, whether a user notice was shown, and
whether `saveSettings` was called. -/
structure ToggleOutcome where
  settings : ObsidianWakatimeSettings
  toggle : ToggleState
  noticeShown : Bool
  saved : Bool
deriving DecidableEq

/-- The `onChange` handler of the settings-tab enable toggle (src/main.ts,
`WakatimeSettingTab.display`): a no-op when the toggle is disabled; without a
truthy API key it shows a notice and forces the toggle off (disabling it)
without touching the settings; otherwise it stores and saves the new value. -/
def onEnableToggleChange (s : ObsidianWakatimeSettings) (t : ToggleState)
    (value : Bool) : ToggleOutcome :=
  if t.disabled then
    { settings := s, toggle := t, noticeShown := false, saved := false }
  else if !optStrTruthy s.apiKey then
    { settings := s, toggle := { disabled := true, value := false },
      noticeShown := true, saved := false }
  else
    { settings := { s with enabled := value }, toggle := { t with value := value },
      noticeShown := false, saved := true }

/-- The callback of the registered `wakatime-plugin-toggle-enabled` command:
it negates `settings.enabled` and saves, unconditionally.  The second
component records that `saveSettings` was called. -/
def toggleEnabledCommand (s : ObsidianWakatimeSettings) :
    ObsidianWakatimeSettings × Bool :=
  ({ s with enabled := !s.enabled }, true)

/-- Rendering a stored string array into the settings-tab text area:
`array.join('\n')`. -/
def renderTextarea (arr : List String) : String :=
  jsJoin '\n' arr

/-- The text-area `onChange` handler: `value.length > 0 ? value.split('\n')
: []`. -/
def parseTextarea (value : String) : List String :=
  if value.length > 0 then jsSplitStr '\n' value else []

/-- The two DOM events `setupEventListeners` registers handlers for. -/
inductive DomEvent where
  | click
  | keydown
deriving DecidableEq

/-- The `isWrite` argument each registered DOM handler passes to `onEvent`:
both the click handler and the keydown handler call `onEvent(false)`. -/
def domEventIsWrite : DomEvent → Bool
  | .click => false
  | .keydown => false

/-- A DOM event together with the editor environment at its moment, as one
monitor input event under settings `s` and vault `vault`. -/
def domToMonitorEvent (s : ObsidianWakatimeSettings) (vault : String)
    (d : DomEvent × EventEnv) : MonitorEvent :=
  { settings := s, vault := vault, env := d.2, isWrite := domEventIsWrite d.1 }

/-- Comparison definition for the DOM-driven monitor: `onEvent` with the
write disjunct of the emission condition removed and the write flag fixed to
`false`. -/
def onEventViewOnly (s : ObsidianWakatimeSettings) (vault : String)
    (env : EventEnv) (st : MonitorState) : Option Emit × MonitorState :=
  if !s.enabled then (none, st)
  else
    match env.view with
    | none => (none, st)
    | some view =>
      match env.activeFile with
      | none => (none, st)
      | some activeFile =>
        if s.ignoreList.any fun ignored =>
            strIncludes ignored activeFile.path || strIncludes activeFile.path ignored then
          (none, st)
        else if enoughTimePassed st env.time
            || (st.lastFile != some activeFile.path) then
          (some { path := activeFile.path, time := env.time, isWrite := false,
                  request := sendHeartbeat s vault activeFile env.time
                    ((viewCursor view).map Cursor.line) ((viewCursor view).map Cursor.ch) false },
           { lastFile := some activeFile.path, lastHeartbeat := env.time })
        else (none, st)

/-- A heartbeat that a view-only (non-write) event trace may legitimately
contain: both its record flag and its request body carry `is_write = false`. -/
def emitIsViewOnly (e : Emit) : Bool :=
  !e.isWrite &&
    (match e.request with
     | some r => !r.body.is_write
     | none => true)

/-- Modelled from the spec: project resolution as §4.2 words it — the first
rule (as a fragment/project pair) whose fragment is contained in the file
path wins; otherwise the default project when one is set, otherwise the vault
name. -/
def resolveProjectSpec (rules : List (String × String)) (dflt : Option String)
    (vault filePath : String) : String :=
  match rules.find? (fun r => strIncludes filePath r.1) with
  | some r => r.2
  | none => dflt.getD vault

/-- A sample file used by concrete witnesses. -/
def sampleFile : TFile := { path := "a.md", extension := "md" }

/-- Sample settings used by concrete witnesses. -/
def sampleSettings : ObsidianWakatimeSettings :=
  { enabled := true, apiKey := some "k", apiUrl := none, defaultProject := none,
    ignoreList := ["secret"], projectAssociations := [] }

/-- A sample editor environment used by concrete witnesses. -/
def sampleEnv : EventEnv :=
  { view := some (.markdown { line := 4, ch := 10 }), activeFile := some sampleFile,
    time := 1 }

/-- A file inside the ignored folder of `sampleSettings`. -/
def ignoredFile : TFile := { path := "secret/x.md", extension := "md" }

/-- An editor environment whose active file lies in the ignored folder. -/
def ignoredEnv : EventEnv :=
  { view := some .other, activeFile := some ignoredFile, time := 5 }

/-- Sample settings with a custom Wakapi base URL. -/
def wakapiSettings : ObsidianWakatimeSettings :=
  { sampleSettings with apiUrl := some "https://wakapi.example" }

/-- Sample settings with one project-association rule. -/
def c3Settings : ObsidianWakatimeSettings :=
  { sampleSettings with projectAssociations := ["notes@NoteProj"] }

/-- The pairwise debounce property of two consecutively emitted heartbeats:
for the same file, the later one is a write or happened more than
`maxHeartbeatInterval` after the earlier one. -/
def consecutiveSpacingOK (e1 e2 : Emit) : Prop :=
  e1.path = e2.path → e2.isWrite = true ∨ e1.time + maxHeartbeatInterval < e2.time

/-! ### Helper lemmas on the JS string operations -/

theorem jsSplit_ne_nil (sep : Char) : ∀ l, jsSplit sep l ≠ []
  | [] => by simp [jsSplit]
  | c :: rest => by
    rw [jsSplit]
    cases h : jsSplit sep rest with
    | nil => simp
    | cons a b => dsimp only; split <;> simp

theorem jsSplit_eq_single (sep : Char) (xs : List Char) (h : sep ∉ xs) :
    jsSplit sep xs = [xs] := by
  induction xs with
  | nil => rfl
  | cons c t ih =>
    simp only [List.mem_cons, not_or] at h
    rw [jsSplit, ih h.2]
    simp [Ne.symm h.1]

theorem jsSplit_append_cons (sep : Char) (xs ys : List Char) (h : sep ∉ xs) :
    jsSplit sep (xs ++ sep :: ys) = xs :: jsSplit sep ys := by
  induction xs with
  | nil =>
    simp only [List.nil_append]
    rw [jsSplit]
    cases hy : jsSplit sep ys with
    | nil => exact absurd hy (jsSplit_ne_nil sep ys)
    | cons a b => simp
  | cons c t ih =>
    simp only [List.mem_cons, not_or] at h
    rw [List.cons_append, jsSplit, ih h.2]
    simp [Ne.symm h.1]

theorem toList_jsJoin_cons_cons (sep : Char) (x y : String) (rest : List String) :
    (jsJoin sep (x :: y :: rest)).toList
      = x.toList ++ sep :: (jsJoin sep (y :: rest)).toList := by
  show (x ++ String.mk [sep] ++ jsJoin sep (y :: rest)).data
      = x.data ++ sep :: (jsJoin sep (y :: rest)).data
  simp [String.data_append]

theorem jsSplitStr_jsJoin (sep : Char) :
    ∀ (arr : List String), arr ≠ [] → (∀ a ∈ arr, sep ∉ a.toList) →
      jsSplitStr sep (jsJoin sep arr) = arr
  | [], h, _ => absurd rfl h
  | [x], _, _ => by
    show jsSplitStr sep x = [x]
    unfold jsSplitStr
    rw [jsSplit_eq_single sep x.toList (by simp_all)]
    rfl
  | x :: y :: rest, _, hsep => by
    unfold jsSplitStr
    rw [toList_jsJoin_cons_cons,
      jsSplit_append_cons sep _ _ (hsep x (by simp))]
    have ih := jsSplitStr_jsJoin sep (y :: rest) (by simp)
      (fun a ha => hsep a (List.mem_cons_of_mem x ha))
    unfold jsSplitStr at ih
    simp only [List.map_cons, ih]
    rfl

/-! ### Helper lemmas on the Activity Monitor -/

theorem onEvent_state_spec (s : ObsidianWakatimeSettings) (vault : String)
    (env : EventEnv) (w : Bool) (st : MonitorState) :
    ((onEvent s vault env w st).1 = none ∧ (onEvent s vault env w st).2 = st)
    ∨ (∃ e, (onEvent s vault env w st).1 = some e
        ∧ (onEvent s vault env w st).2 = { lastFile := some e.path, lastHeartbeat := e.time }
        ∧ e.time = env.time ∧ e.isWrite = w
        ∧ (w = true ∨ st.lastHeartbeat + maxHeartbeatInterval < env.time
            ∨ st.lastFile ≠ some e.path)
        ∧ ∃ r, e.request = some r ∧ r.body.is_write = w) := by
  unfold onEvent
  split
  · exact Or.inl ⟨rfl, rfl⟩
  · split
    · exact Or.inl ⟨rfl, rfl⟩
    · split
      · exact Or.inl ⟨rfl, rfl⟩
      · split
        · exact Or.inl ⟨rfl, rfl⟩
        · split
          · rename_i hcond
            refine Or.inr ⟨_, rfl, rfl, rfl, rfl, ?_, ?_⟩
            · simp only [Bool.or_eq_true, enoughTimePassed, decide_eq_true_eq,
                bne_iff_ne, ne_eq] at hcond
              tauto
            · unfold sendHeartbeat
              rw [if_neg (by simp_all)]
              exact ⟨_, rfl, rfl⟩
          · exact Or.inl ⟨rfl, rfl⟩

theorem runMonitor_chain (evs : List MonitorEvent) (st : MonitorState) :
    List.Chain' consecutiveSpacingOK (runMonitor st evs).1
    ∧ (∀ e, (runMonitor st evs).1.head? = some e →
        st.lastFile = some e.path →
          e.isWrite = true ∨ st.lastHeartbeat + maxHeartbeatInterval < e.time) := by
  induction evs generalizing st with
  | nil => simp [runMonitor]
  | cons ev evs ih =>
    rw [runMonitor]
    have hsp := onEvent_state_spec ev.settings ev.vault ev.env ev.isWrite st
    have hms : onEvent ev.settings ev.vault ev.env ev.isWrite st = monitorStep st ev := rfl
    rw [hms] at hsp
    cases hstep : monitorStep st ev with
    | mk emit st1 =>
      rw [hstep] at hsp
      cases emit with
      | none =>
        have hst : st1 = st := by
          rcases hsp with ⟨_, h2⟩ | ⟨e, he, _⟩
          · exact h2
          · exact absurd he (by simp)
        dsimp only
        rw [hst]
        exact ih st
      | some hb =>
        rcases hsp with ⟨he, _⟩ | ⟨e, he, hupd, htime, hwrite, hcond, hreq⟩
        · exact absurd he (by simp)
        · simp only [Option.some.injEq] at he
          subst he
          have hupd2 : st1 = { lastFile := some hb.path, lastHeartbeat := hb.time } := hupd
          dsimp only
          cases hrun : runMonitor st1 evs with
          | mk hbs stF =>
            have ihr := ih st1
            rw [hrun] at ihr
            dsimp only at ihr ⊢
            constructor
            · rw [List.chain'_cons']
              refine ⟨?_, ihr.1⟩
              intro y hy
              have hy2 := ihr.2 y (Option.mem_def.mp hy)
              rw [hupd2] at hy2
              intro hpath
              exact hy2 (by simpa using congrArg some hpath)
            · intro e2 he2 hfile
              simp only [List.head?_cons, Option.some.injEq] at he2
              subst he2
              rcases hcond with hw | ht | hne
              · exact Or.inl (hwrite.trans hw)
              · exact Or.inr (htime ▸ ht)
              · exact absurd hfile hne

/-! ### Helper lemmas on the dispatcher's completion handling -/

theorem handleCompletion_eq (flag : Bool) (c : Completion) :
    handleCompletion flag c = (isFailure c, if isFailure c && !flag then 1 else 0) := by
  cases c with
  | none => cases flag <;> simp [handleCompletion, catchHandler, isFailure]
  | some status =>
    by_cases h : 300 ≤ status <;>
      cases flag <;>
        simp [handleCompletion, thenHandler, catchHandler, isFailure, h]

theorem runDispatch_notices (flag : Bool) (cs : List Completion) :
    (runDispatch flag cs).1 = noticesSpec flag cs := by
  induction cs generalizing flag with
  | nil => rfl
  | cons c cs ih =>
    rw [runDispatch, handleCompletion_eq, noticesSpec]
    dsimp only
    cases hrun : runDispatch (isFailure c) cs with
    | mk ns flagF =>
      have h2 := ih (isFailure c)
      rw [hrun] at h2
      dsimp only at h2 ⊢
      rw [h2]

theorem runDispatch_flag (flag : Bool) (cs : List Completion) :
    (runDispatch flag cs).2 = (cs.getLast?.map isFailure).getD flag := by
  induction cs generalizing flag with
  | nil => rfl
  | cons c cs ih =>
    rw [runDispatch, handleCompletion_eq]
    dsimp only
    cases hrun : runDispatch (isFailure c) cs with
    | mk ns flagF =>
      have h2 := ih (isFailure c)
      rw [hrun] at h2
      dsimp only at h2 ⊢
      rw [h2]
      cases cs with
      | nil => rfl
      | cons c2 cs2 =>
        rw [List.getLast?_cons_cons]
        cases hl : (c2 :: cs2).getLast? with
        | none => simp [List.getLast?_eq_none_iff] at hl
        | some x => simp [hl]

/-! ### Helper lemmas on project association parsing -/

theorem parseAssociation_serialize (frag proj : String)
    (hfrag : frag ≠ "") (hproj : proj ≠ "")
    (hfrag2 : '@' ∉ frag.toList) (hproj2 : '@' ∉ proj.toList) :
    parseAssociation (frag ++ "@" ++ proj) = some (frag, proj) := by
  unfold parseAssociation jsSplitStr
  have hdata : (frag ++ "@" ++ proj).toList = frag.toList ++ '@' :: proj.toList := by
    show ((frag ++ "@") ++ proj).data = frag.data ++ '@' :: proj.data
    simp [String.data_append]
  rw [hdata, jsSplit_append_cons _ _ _ hfrag2, jsSplit_eq_single _ _ hproj2]
  simp only [List.map_cons, List.map_nil]
  have hfr : String.mk frag.toList = frag := rfl
  have hpr : String.mk proj.toList = proj := rfl
  rw [hfr, hpr]
  simp [hfrag, hproj]

theorem findSome?_assoc (filePath : String) (rules : List (String × String))
    (hWF : ∀ r ∈ rules, r.1 ≠ "" ∧ r.2 ≠ "" ∧ '@' ∉ r.1.toList ∧ '@' ∉ r.2.toList) :
    (rules.map fun r => r.1 ++ "@" ++ r.2).findSome? (assocProject filePath)
      = (rules.find? fun r => strIncludes filePath r.1).map Prod.snd := by
  induction rules with
  | nil => rfl
  | cons r rest ih =>
    have hr := hWF r (by simp)
    have hparse := parseAssociation_serialize r.1 r.2 hr.1 hr.2.1 hr.2.2.1 hr.2.2.2
    have ihr := ih fun x hx => hWF x (List.mem_cons_of_mem r hx)
    cases hm : strIncludes filePath r.1 with
    | true =>
      simp [List.findSome?_cons, List.find?_cons, assocProject, hparse, hm]
    | false =>
      simp [List.findSome?_cons, List.find?_cons, assocProject, hparse, hm, ihr]

/-! ### Miscellaneous helper lemmas -/

theorem optStrTruthy_some_iff (u : String) : optStrTruthy (some u) = true ↔ u ≠ "" := by
  simp [optStrTruthy]

theorem runMonitor_view_only (evs : List MonitorEvent) (st : MonitorState)
    (hw : ∀ ev ∈ evs, ev.isWrite = false) :
    ((runMonitor st evs).1.all emitIsViewOnly) = true := by
  induction evs generalizing st with
  | nil => simp [runMonitor]
  | cons ev evs ih =>
    rw [runMonitor]
    have hsp := onEvent_state_spec ev.settings ev.vault ev.env ev.isWrite st
    have hms : onEvent ev.settings ev.vault ev.env ev.isWrite st = monitorStep st ev := rfl
    rw [hms] at hsp
    cases hstep : monitorStep st ev with
    | mk emit st1 =>
      rw [hstep] at hsp
      cases emit with
      | none => exact ih st1 fun x hx => hw x (List.mem_cons_of_mem ev hx)
      | some hb =>
        rcases hsp with ⟨he, _⟩ | ⟨e, he, _, _, hwrite, _, r, hr, hrw⟩
        · exact absurd he (by simp)
        · simp only [Option.some.injEq] at he
          subst he
          dsimp only
          cases hrun : runMonitor st1 evs with
          | mk hbs stF =>
            have ihr := ih st1 fun x hx => hw x (List.mem_cons_of_mem ev hx)
            rw [hrun] at ihr
            dsimp only at ihr ⊢
            have hev : ev.isWrite = false := hw ev (by simp)
            rw [List.all_cons, ihr, Bool.and_true]
            unfold emitIsViewOnly
            rw [hr, hwrite, hev]
            simp [hrw, hev]

/-! ### Claim theorems -/

/-- C1: for every qualifying input event (plugin enabled, active file view and
active file present, path not ignored) a heartbeat is emitted iff the event is
a write, or more than 120 000 ms passed since the last recorded heartbeat, or
the active file differs from the last recorded one; the debounce state is
updated exactly on emission; hence consecutive heartbeats for the same file
are more than 120 000 ms apart unless the later event is a write. -/
theorem heartbeat_emission_policy :
    (∀ (s : ObsidianWakatimeSettings) (vault : String) (env : EventEnv) (w : Bool)
        (st : MonitorState) (f : TFile),
      s.enabled = true →
      env.view.isSome = true →
      env.activeFile = some f →
      (s.ignoreList.any fun ignored =>
          strIncludes ignored f.path || strIncludes f.path ignored) = false →
      (onEvent s vault env w st).1.isSome
        = (w || enoughTimePassed st env.time || (st.lastFile != some f.path)))
    ∧ (∀ (s : ObsidianWakatimeSettings) (vault : String) (env : EventEnv) (w : Bool)
        (st : MonitorState),
        ((onEvent s vault env w st).1 = none ∧ (onEvent s vault env w st).2 = st)
        ∨ (∃ e, (onEvent s vault env w st).1 = some e
            ∧ (onEvent s vault env w st).2
                = { lastFile := some e.path, lastHeartbeat := e.time }
            ∧ e.time = env.time))
    ∧ (∀ (st0 : MonitorState) (evs : List MonitorEvent),
        List.Chain' consecutiveSpacingOK (runMonitor st0 evs).1) := by
  refine ⟨?_, ?_, ?_⟩
  · intro s vault env w st f hen hview hfile hign
    unfold onEvent
    obtain ⟨v, hv⟩ := Option.isSome_iff_exists.mp hview
    rw [if_neg (by simp [hen]), hv, hfile]
    dsimp only
    rw [if_neg (by simp [hign])]
    cases hcond : (w || enoughTimePassed st env.time || (st.lastFile != some f.path)) with
    | true => rfl
    | false => rfl
  · intro s vault env w st
    rcases onEvent_state_spec s vault env w st with ⟨h1, h2⟩ | ⟨e, he, hupd, htime, _⟩
    · exact Or.inl ⟨h1, h2⟩
    · exact Or.inr ⟨e, he, hupd, htime⟩
  · intro st0 evs
    exact (runMonitor_chain evs st0).1

/-- C1 witness: a concrete qualifying event on a fresh monitor state. -/
theorem heartbeat_emission_policy_witness :
    sampleSettings.enabled = true ∧
    sampleEnv.view.isSome = true ∧
    sampleEnv.activeFile = some sampleFile ∧
    (sampleSettings.ignoreList.any fun ignored =>
        strIncludes ignored sampleFile.path || strIncludes sampleFile.path ignored) = false ∧
    (onEvent sampleSettings "Vault" sampleEnv false initialMonitorState).1.isSome
      = (false || enoughTimePassed initialMonitorState sampleEnv.time
          || (initialMonitorState.lastFile != some sampleFile.path)) :=
  ⟨rfl, rfl, rfl, by decide,
    heartbeat_emission_policy.1 sampleSettings "Vault" sampleEnv false initialMonitorState
      sampleFile rfl rfl rfl (by decide)⟩

/-- C4: when any ignore-list entry and the active file's path contain one
another (in either direction), `onEvent` emits nothing and leaves the
debounce state unchanged. -/
theorem ignore_list_blocks_heartbeats (s : ObsidianWakatimeSettings) (vault : String)
    (env : EventEnv) (w : Bool) (st : MonitorState) (L : String) (f : TFile)
    (hf : env.activeFile = some f) (hL : L ∈ s.ignoreList)
    (hmatch : strIncludes f.path L = true ∨ strIncludes L f.path = true) :
    onEvent s vault env w st = (none, st) := by
  have hany : (s.ignoreList.any fun ignored =>
      strIncludes ignored f.path || strIncludes f.path ignored) = true := by
    rw [List.any_eq_true]
    exact ⟨L, hL, by rcases hmatch with h | h <;> simp [h]⟩
  unfold onEvent
  by_cases hen : (!s.enabled) = true
  · rw [if_pos hen]
  · rw [if_neg hen]
    cases hv : env.view with
    | none => rfl
    | some v =>
      rw [hf]
      dsimp only
      rw [if_pos hany]

/-- C4 witness: the entry `secret` blocks the file `secret/x.md`. -/
theorem ignore_list_blocks_heartbeats_witness :
    ignoredEnv.activeFile = some ignoredFile ∧
    "secret" ∈ sampleSettings.ignoreList ∧
    (strIncludes ignoredFile.path "secret" = true
      ∨ strIncludes "secret" ignoredFile.path = true) ∧
    onEvent sampleSettings "Vault" ignoredEnv false initialMonitorState
      = (none, initialMonitorState) :=
  ⟨rfl, by decide, Or.inl (by decide),
    ignore_list_blocks_heartbeats sampleSettings "Vault" ignoredEnv false
      initialMonitorState "secret" ignoredFile rfl (by decide) (Or.inl (by decide))⟩

/-- C10: both registered DOM handlers (click and keydown) call `onEvent` with
`isWrite = false`; under that flag `onEvent` coincides with the variant whose
emission condition has no write disjunct, and every heartbeat of every
DOM-driven trace carries `is_write = false`. -/
theorem dom_events_never_write :
    (∀ d : DomEvent, domEventIsWrite d = false)
    ∧ (∀ (s : ObsidianWakatimeSettings) (vault : String) (env : EventEnv)
        (st : MonitorState) (d : DomEvent),
        onEvent s vault env (domEventIsWrite d) st = onEventViewOnly s vault env st)
    ∧ (∀ (s : ObsidianWakatimeSettings) (vault : String) (st0 : MonitorState)
        (trace : List (DomEvent × EventEnv)),
        ((runMonitor st0 (trace.map (domToMonitorEvent s vault))).1.all
          emitIsViewOnly) = true) := by
  refine ⟨?_, ?_, ?_⟩
  · intro d
    cases d <;> rfl
  · intro s vault env st d
    cases d <;> rfl
  · intro s vault st0 trace
    refine runMonitor_view_only _ st0 ?_
    intro ev hev
    simp only [List.mem_map] at hev
    obtain ⟨⟨d, e⟩, _, hde⟩ := hev
    rw [← hde]
    cases d <;> rfl

/-- C2: a failed request completion raises a user notice exactly when the
failure streak was not already open (so once per consecutive failure streak),
a success resets the streak flag, and the concrete sequence 500, 500, 200,
500 raises notices on exactly the first and last completion. -/
theorem failure_notice_once_per_streak :
    (∀ (flag0 : Bool) (cs : List Completion),
        (runDispatch flag0 cs).1 = noticesSpec flag0 cs)
    ∧ (∀ (flag0 : Bool) (cs : List Completion),
        (runDispatch flag0 cs).2 = (cs.getLast?.map isFailure).getD flag0)
    ∧ (runDispatch false [some 500, some 500, some 200, some 500]).1 = [1, 0, 0, 1] :=
  ⟨runDispatch_notices, runDispatch_flag, by decide⟩

/-- C3: project resolution scans the association rules in order and the first
rule whose path fragment occurs in the file path supplies the project;
without a match the default project (when set) and otherwise the vault name
is used.  In particular `["a@P1", "a/b@P2"]` resolves `a/b/note.md` to `P1`,
and with no rules and no default the vault name results. -/
theorem project_resolution_first_match :
    (∀ (rules : List (String × String)) (s : ObsidianWakatimeSettings)
        (vault : String) (file : TFile),
      s.projectAssociations = (rules.map fun r => r.1 ++ "@" ++ r.2) →
      (∀ r ∈ rules, r.1 ≠ "" ∧ r.2 ≠ "" ∧ '@' ∉ r.1.toList ∧ '@' ∉ r.2.toList) →
      (s.defaultProject = none ∨ ∃ d, s.defaultProject = some d ∧ d ≠ "") →
      getProjectForFile s vault file
        = resolveProjectSpec rules s.defaultProject vault file.path)
    ∧ (∀ (s : ObsidianWakatimeSettings) (vault : String) (file : TFile),
        s.projectAssociations = ["a@P1", "a/b@P2"] → file.path = "a/b/note.md" →
        getProjectForFile s vault file = "P1")
    ∧ (∀ (s : ObsidianWakatimeSettings) (vault : String) (file : TFile),
        s.projectAssociations = [] → s.defaultProject = none →
        getProjectForFile s vault file = vault) := by
  refine ⟨?_, ?_, ?_⟩
  · intro rules s vault file hassoc hWF hdflt
    unfold getProjectForFile resolveProjectSpec
    rw [hassoc, findSome?_assoc file.path rules hWF]
    cases hfind : rules.find? fun r => strIncludes file.path r.1 with
    | some r => rfl
    | none =>
      simp only [Option.map_none']
      rcases hdflt with h | ⟨d, hd, hne⟩
      · rw [h]; rfl
      · rw [hd]
        simp [hne]
  · intro s vault file hassoc hpath
    unfold getProjectForFile
    rw [hassoc, hpath]
    rfl
  · intro s vault file hassoc hdflt
    unfold getProjectForFile
    rw [hassoc, hdflt]
    rfl

/-- C3 witness: one well-formed rule resolving a file under `notes`. -/
theorem project_resolution_first_match_witness :
    c3Settings.projectAssociations
        = ([("notes", "NoteProj")].map fun r => r.1 ++ "@" ++ r.2) ∧
    (∀ r ∈ [("notes", "NoteProj")],
        r.1 ≠ "" ∧ r.2 ≠ "" ∧ '@' ∉ r.1.toList ∧ '@' ∉ r.2.toList) ∧
    (c3Settings.defaultProject = none
      ∨ ∃ d, c3Settings.defaultProject = some d ∧ d ≠ "") ∧
    getProjectForFile c3Settings "Vault" { path := "notes/a.md", extension := "md" }
      = resolveProjectSpec [("notes", "NoteProj")] c3Settings.defaultProject "Vault"
          (TFile.mk "notes/a.md" "md").path :=
  ⟨by decide, by decide, Or.inl rfl,
    project_resolution_first_match.1 [("notes", "NoteProj")] c3Settings "Vault"
      { path := "notes/a.md", extension := "md" } (by decide) (by decide) (Or.inl rfl)⟩

/-- C5: the dispatcher posts to `{apiUrl}/api/v1/users/current/heartbeats`
with `Basic` + base64 credentials when a custom base URL is set, and to the
hosted WakaTime endpoint with a `Bearer` token otherwise. -/
theorem dispatcher_endpoint_and_auth (s : ObsidianWakatimeSettings)
    (k vault : String) (file : TFile) (time : Nat) (line cp : Option Nat) (w : Bool)
    (hen : s.enabled = true) (hk : s.apiKey = some k) :
    (s.apiUrl = none →
      ∃ r, sendHeartbeat s vault file time line cp w = some r
        ∧ r.url = "https://api.wakatime.com/api/v1/users/current/heartbeats"
        ∧ r.authorization = "Bearer " ++ k)
    ∧ (∀ u, s.apiUrl = some u → u ≠ "" →
      ∃ r, sendHeartbeat s vault file time line cp w = some r
        ∧ r.url = u ++ "/api/v1/users/current/heartbeats"
        ∧ r.authorization = "Basic " ++ btoa k) := by
  constructor
  · intro hu
    unfold sendHeartbeat
    rw [if_neg (by simp [hen]), hu, hk]
    exact ⟨_, rfl, rfl, rfl⟩
  · intro u hu hune
    unfold sendHeartbeat
    rw [if_neg (by simp [hen]), hu, hk]
    have htr : optStrTruthy (some u) = true := (optStrTruthy_some_iff u).mpr hune
    refine ⟨_, rfl, ?_, ?_⟩
    · rw [if_pos htr]
      rfl
    · dsimp only
      rw [if_pos htr]
      rfl

/-- C5 witness: both endpoint cases at concrete settings. -/
theorem dispatcher_endpoint_and_auth_witness :
    wakapiSettings.enabled = true ∧
    wakapiSettings.apiKey = some "k" ∧
    wakapiSettings.apiUrl = some "https://wakapi.example" ∧
    ("https://wakapi.example" : String) ≠ "" ∧
    (∃ r, sendHeartbeat wakapiSettings "V" sampleFile 0 none none false = some r
      ∧ r.url = "https://wakapi.example/api/v1/users/current/heartbeats"
      ∧ r.authorization = "Basic " ++ btoa "k") :=
  ⟨rfl, rfl, rfl, by decide,
    (dispatcher_endpoint_and_auth wakapiSettings "k" "V" sampleFile 0 none none false
        rfl rfl).2 "https://wakapi.example" rfl (by decide)⟩

/-- C6: the heartbeat body consists of exactly the ten documented fields with
the documented values; in particular the spec's example payload for
`notes/todo.md` in vault `Vault` matches. -/
theorem heartbeat_payload_fields :
    (∀ (s : ObsidianWakatimeSettings) (vault : String) (file : TFile) (time : Nat)
        (line cp : Option Nat) (w : Bool), s.enabled = true →
      ∃ r, sendHeartbeat s vault file time line cp w = some r
        ∧ r.body.time = (time : ℚ) / 1000
        ∧ r.body.entity = "/" ++ vault ++ "/" ++ file.path
        ∧ r.body.type = "file"
        ∧ r.body.project = getProjectForFile s vault file
        ∧ r.body.language = (if file.extension = "md" then some "Markdown" else none)
        ∧ r.body.is_write = w
        ∧ r.body.cursorpos = cp
        ∧ r.body.lineno = line
        ∧ r.body.editor = "Obsidian"
        ∧ r.body.category
            = (if (getLanguageForFile file).isSome then "writing" else "reading"))
    ∧ (∃ r, sendHeartbeat sampleSettings "Vault"
          { path := "notes/todo.md", extension := "md" } 2000 (some 4) (some 10) true
          = some r
        ∧ r.body.entity = "/Vault/notes/todo.md"
        ∧ r.body.project = "Vault"
        ∧ r.body.language = some "Markdown"
        ∧ r.body.category = "writing"
        ∧ r.body.is_write = true
        ∧ r.body.lineno = some 4
        ∧ r.body.cursorpos = some 10) := by
  constructor
  · intro s vault file time line cp w hen
    unfold sendHeartbeat
    rw [if_neg (by simp [hen])]
    refine ⟨_, rfl, rfl, rfl, rfl, rfl, rfl, rfl, rfl, rfl, rfl, ?_⟩
    unfold getLanguageForFile
    by_cases h : file.extension = "md" <;> simp [h, optStrTruthy]
  · exact ⟨_, rfl, rfl, rfl, rfl, rfl, rfl, rfl, rfl⟩

/-- C6 witness: the field characterization at a concrete write event. -/
theorem heartbeat_payload_fields_witness :
    sampleSettings.enabled = true ∧
    (∃ r, sendHeartbeat sampleSettings "V" sampleFile 1000 none none false = some r
      ∧ r.body.time = (1000 : ℚ) / 1000
      ∧ r.body.entity = "/" ++ "V" ++ "/" ++ sampleFile.path
      ∧ r.body.type = "file"
      ∧ r.body.project = getProjectForFile sampleSettings "V" sampleFile
      ∧ r.body.language = (if sampleFile.extension = "md" then some "Markdown" else none)
      ∧ r.body.is_write = false
      ∧ r.body.cursorpos = none
      ∧ r.body.lineno = none
      ∧ r.body.editor = "Obsidian"
      ∧ r.body.category
          = (if (getLanguageForFile sampleFile).isSome then "writing" else "reading")) :=
  ⟨rfl, heartbeat_payload_fields.1 sampleSettings "V" sampleFile 1000 none none false rfl⟩

/-- C7: flipping the settings-tab enable toggle on without an API key shows a
notice, forces the toggle off, does not change or save the settings; and a
save of `enabled = true` through this handler implies an API key was set. -/
theorem enable_toggle_requires_api_key :
    (∀ (s : ObsidianWakatimeSettings) (t : ToggleState),
      t.disabled = false → optStrTruthy s.apiKey = false →
        (onEnableToggleChange s t true).noticeShown = true
        ∧ (onEnableToggleChange s t true).toggle.value = false
        ∧ (onEnableToggleChange s t true).settings.enabled = s.enabled
        ∧ (onEnableToggleChange s t true).saved = false)
    ∧ (∀ (s : ObsidianWakatimeSettings) (t : ToggleState) (v : Bool),
        (onEnableToggleChange s t v).saved = true →
        (onEnableToggleChange s t v).settings.enabled = true →
        optStrTruthy s.apiKey = true) := by
  constructor
  · intro s t hd hk
    unfold onEnableToggleChange
    rw [if_neg (by simp [hd]), if_pos (by simp [hk])]
    exact ⟨rfl, rfl, rfl, rfl⟩
  · intro s t v hsaved _
    by_cases hd : t.disabled = true
    · unfold onEnableToggleChange at hsaved
      rw [if_pos hd] at hsaved
      exact absurd hsaved (by simp)
    · by_cases hk : optStrTruthy s.apiKey = true
      · exact hk
      · unfold onEnableToggleChange at hsaved
        rw [if_neg hd, if_pos (by simp_all)] at hsaved
        exact absurd hsaved (by simp)

/-- C7 witness: the default settings (no API key) with an enabled toggle. -/
theorem enable_toggle_requires_api_key_witness :
    (ToggleState.mk false false).disabled = false ∧
    optStrTruthy DEFAULT_SETTINGS.apiKey = false ∧
    ((onEnableToggleChange DEFAULT_SETTINGS (ToggleState.mk false false) true).noticeShown = true
      ∧ (onEnableToggleChange DEFAULT_SETTINGS (ToggleState.mk false false) true).toggle.value = false
      ∧ (onEnableToggleChange DEFAULT_SETTINGS (ToggleState.mk false false) true).settings.enabled
          = DEFAULT_SETTINGS.enabled
      ∧ (onEnableToggleChange DEFAULT_SETTINGS (ToggleState.mk false false) true).saved = false) :=
  ⟨rfl, rfl,
    enable_toggle_requires_api_key.1 DEFAULT_SETTINGS (ToggleState.mk false false) rfl rfl⟩

/-- C8 counterexample: the singleton array containing the empty string is an
array of newline-free entries, yet it renders as the empty text and parses
back to the empty array, so the round trip does not return it. -/
theorem textarea_round_trip_counterexample :
    ('\n' ∉ "".toList) ∧ parseTextarea (renderTextarea [""]) = []
      ∧ parseTextarea (renderTextarea [""]) ≠ [""] :=
  ⟨by decide, by decide, by decide⟩

/-- C8 (amended): rendering a stored array as newline-joined text and saving
it back by line-splitting returns the original array for every array of
newline-free entries other than the singleton array containing the empty
string (which maps back to the empty array). -/
theorem textarea_round_trip (arr : List String)
    (hnl : ∀ a ∈ arr, '\n' ∉ a.toList) (hne : arr ≠ [""]) :
    parseTextarea (renderTextarea arr) = arr := by
  match arr with
  | [] => rfl
  | [x] =>
    have hx : x ≠ "" := fun h => hne (by rw [h])
    have hlen : x.length > 0 := by
      cases hxd : x.data with
      | nil => exact absurd (String.ext hxd) hx
      | cons c t => simp [String.length, hxd]
    unfold parseTextarea renderTextarea
    rw [if_pos (show (jsJoin '\n' [x]).length > 0 from hlen)]
    exact jsSplitStr_jsJoin '\n' [x] (by simp) hnl
  | x :: y :: rest =>
    have hlen : (renderTextarea (x :: y :: rest)).length > 0 := by
      show (jsJoin '\n' (x :: y :: rest)).data.length > 0
      rw [show (jsJoin '\n' (x :: y :: rest)).data
          = x.toList ++ '\n' :: (jsJoin '\n' (y :: rest)).toList
        from toList_jsJoin_cons_cons '\n' x y rest]
      simp
    unfold parseTextarea renderTextarea
    rw [if_pos (show (jsJoin '\n' (x :: y :: rest)).length > 0 from hlen)]
    exact jsSplitStr_jsJoin '\n' (x :: y :: rest) (by simp) hnl

/-- C8 witness: a two-entry array round-trips. -/
theorem textarea_round_trip_witness :
    (∀ a ∈ ["a", "b"], '\n' ∉ a.toList) ∧ (["a", "b"] ≠ ([""] : List String)) ∧
    parseTextarea (renderTextarea ["a", "b"]) = ["a", "b"] :=
  ⟨by decide, by decide, textarea_round_trip ["a", "b"] (by decide) (by decide)⟩

/-- C9: the registered toggle command negates `enabled` and saves it with no
API-key precondition; from the default state (no key, disabled) it yields
`enabled = true`. -/
theorem toggle_command_unconditional :
    (∀ s : ObsidianWakatimeSettings,
        (toggleEnabledCommand s).1.enabled = !s.enabled
        ∧ (toggleEnabledCommand s).2 = true)
    ∧ DEFAULT_SETTINGS.apiKey = none ∧ DEFAULT_SETTINGS.enabled = false
    ∧ (toggleEnabledCommand DEFAULT_SETTINGS).1.enabled = true :=
  ⟨fun _ => ⟨rfl, rfl⟩, rfl, rfl, rfl⟩

end Wakatime
